import Mathlib

/-!
Verification of the batch-inference pipeline in `src/mlflow/PySparkPredict.py`.

The script is embedded shallowly:

* a Spark DataFrame becomes `Table`, a schema (list of column names) together
  with rows, each row a list of cell values aligned with the schema;
* the object store reachable through the Spark session becomes `FS`, a map
  from paths to the dataset stored there (if any); `spark.read.parquet`
  is lookup, `DataFrame.write.parquet` is insertion that fails when the
  path is already occupied (Spark's default `errorifexists` save mode);
* the MLflow registry (`mlflow.spark.load_model`) becomes `Registry`, a map
  from model URIs to models; a `Model` is an opaque transformer on tables;
* `process` threads the file system explicitly and returns it together with
  the error, if any; a failed stage aborts the run with the file system
  unchanged, matching the script's unhandled-exception behaviour;
* the `argparse` block of `__main__` becomes `parseArgs`;
* the module-level `os.environ` assignments and the pipeline stages are also
  recorded as an event trace (`programTrace`, `stageTrace`) for the ordering
  claims.
-/

namespace PySparkPredict

/-- A cell value of a table. The claims never depend on the value domain, so
integers suffice. -/
abbrev Val := Int

/-- A columnar dataset (Spark DataFrame): a schema and rows aligned with it. -/
structure Table where
  cols : List String
  rows : List (List Val)
deriving DecidableEq, Repr

/-- Position of a column name in a schema, if present. -/
def colIndex : List String → String → Option Nat
  | [], _ => none
  | c :: cs, name => if c = name then some 0 else (colIndex cs name).map (· + 1)

/-- The embedding of `df.select(c₁, c₂)`: project a table onto two named
columns. Fails (Spark `AnalysisException`) when either column is absent. -/
def selectTwo (t : Table) (c₁ c₂ : String) : Option Table :=
  match colIndex t.cols c₁, colIndex t.cols c₂ with
  | some i, some j =>
      some ⟨[c₁, c₂], t.rows.map (fun r => [r.getD i 0, r.getD j 0])⟩
  | _, _ => none

/-- An MLflow Spark model as the pipeline sees it: an opaque transformer from
tables to tables (`model.transform(df)`). -/
structure Model where
  transform : Table → Table

/-- The object store: maps each path to the dataset stored there, if any. -/
abbrev FS := String → Option Table

/-- The model registry: resolves a model URI to a model, if any. -/
abbrev Registry := String → Option Model

/-- The failure modes of the pipeline, one per stage that can raise. -/
inductive Err where
  | unreadableData
  | modelNotFound
  | schemaMismatch
  | pathExists
deriving DecidableEq, Repr

/-- The embedding of `predictions.write.parquet(result)`: Spark's default save
mode errors out when the target path already holds a dataset, otherwise the
store gains the new dataset at that path. -/
def writeParquet (fs : FS) (path : String) (t : Table) : Option FS :=
  match fs path with
  | some _ => none
  | none => some (fun p => if p = path then some t else fs p)

/-- The embedding of `process(spark, data_path, result, model_uri)`: read the
dataset, load the model, apply it and project the `driver_id` and
`prediction` columns, then write the result. Returns the file system after
the run together with the error, if any; a failing stage raises, so the file
system is returned unchanged. -/
def process (fs : FS) (reg : Registry) (data_path result model_uri : String) :
    FS × Option Err :=
  match fs data_path with
  | none => (fs, some Err.unreadableData)
  | some data_df =>
    match reg model_uri with
    | none => (fs, some Err.modelNotFound)
    | some model =>
      match selectTwo (model.transform data_df) "driver_id" "prediction" with
      | none => (fs, some Err.schemaMismatch)
      | some predictions =>
        match writeParquet fs result predictions with
        | none => (fs, some Err.pathExists)
        | some fs₁ => (fs₁, none)

/-- Observable events of one program execution: the module-level environment
assignments and the four pipeline steps. -/
inductive Event where
  | setEnv (name value : String)
  | readData (path : String)
  | loadModel (uri : String)
  | applyModel
  | writeResult (path : String)
deriving DecidableEq, Repr

/-- Events a stage of `process` emits when it starts, in execution order; a
failing stage is the last one started. -/
def stageTrace (fs : FS) (reg : Registry) (data_path result model_uri : String) :
    List Event :=
  Event.readData data_path ::
    match fs data_path with
    | none => []
    | some data_df =>
      Event.loadModel model_uri ::
        match reg model_uri with
        | none => []
        | some model =>
          Event.applyModel ::
            match selectTwo (model.transform data_df) "driver_id" "prediction" with
            | none => []
            | some _ => [Event.writeResult result]

/-- The complete stage sequence of a fully successful run. -/
def fullTrace (data_path result model_uri : String) : List Event :=
  [Event.readData data_path, Event.loadModel model_uri, Event.applyModel,
   Event.writeResult result]

/-- The three module-level `os.environ` assignments (lines 8-10 of the
script), executed at import time in source order. -/
def envSetup : List Event :=
  [Event.setEnv "MLFLOW_S3_ENDPOINT_URL" "https://url.net",
   Event.setEnv "AWS_ACCESS_KEY_ID" "key-id",
   Event.setEnv "AWS_SECRET_ACCESS_KEY" "access-key"]

/-- Predicate separating pipeline-stage events from configuration events. -/
def isStageEvent : Event → Bool
  | Event.setEnv _ _ => false
  | _ => true

/-- The parsed command line of the script. -/
structure Args where
  data : String
  result : String
  model_uri : String
deriving DecidableEq, Repr

/-- Default of `--data`. -/
def defaultDataPath : String := "data.parquet"

/-- Default of `--result`. -/
def defaultResultPath : String := "result"

/-- Default of `--model_uri`, verbatim from the script. -/
def defaultModelUri : String :=
  "s3://kc-mlflow/341/49349c2583f94de18093e90d3d6ea578/artifacts/e-sidorova"

/-- One pass over the argument vector in the manner of `argparse`: each
recognised flag consumes the following token as its value, an unrecognised
token or a flag missing its value makes parsing fail (argparse exits). -/
def parseLoop : Args → List String → Option Args
  | acc, [] => some acc
  | acc, "--data" :: v :: rest => parseLoop { acc with data := v } rest
  | acc, "--result" :: v :: rest => parseLoop { acc with result := v } rest
  | acc, "--model_uri" :: v :: rest => parseLoop { acc with model_uri := v } rest
  | _, _ :: _ => none

/-- The embedding of the `argparse` block of `__main__`: start from the three
defaults and fold the argument vector over them. -/
def parseArgs (argv : List String) : Option Args :=
  parseLoop ⟨defaultDataPath, defaultResultPath, defaultModelUri⟩ argv

/-- Event trace of one whole execution of the script: the import-time
environment assignments happen first, then (when the command line parses)
the pipeline stages on the parsed arguments. -/
def programTrace (fs : FS) (reg : Registry) (argv : List String) : List Event :=
  envSetup ++
    match parseArgs argv with
    | none => []
    | some a => stageTrace fs reg a.data a.result a.model_uri

/-- A model whose `transform` is a deterministic row-wise mapping: the output
schema is a function of the input schema alone and every row is mapped
independently by one fixed function, as a Spark ML transformer does. -/
def RowWise (m : Model) : Prop :=
  ∃ g : List String → List String, ∃ f : List Val → List Val,
    ∀ t : Table, m.transform t = ⟨g t.cols, t.rows.map f⟩

/-- Concrete two-row dataset used by the witnesses, after the scenario of the
specification: a `driver_id` column and one feature column. -/
def cTable : Table := ⟨["driver_id", "f1"], [[1, 10], [2, 90]]⟩

/-- Concrete row-wise model for the witnesses: appends a `prediction` column. -/
def cModel : Model :=
  ⟨fun t => ⟨t.cols ++ ["prediction"], t.rows.map (fun r => r ++ [0])⟩⟩

/-- Concrete store holding the input dataset at path `d` and nothing else. -/
def cFS : FS := fun p => if p = "d" then some cTable else none

/-- Concrete registry resolving every URI to `cModel`. -/
def cReg : Registry := fun _ => some cModel

/-- Concrete registry resolving no URI at all. -/
def cRegNone : Registry := fun _ => none

/-- The prediction table the pipeline derives from `cTable` and `cModel`. -/
def cOut : Table := ⟨["driver_id", "prediction"], [[1, 0], [2, 0]]⟩

/-- The store after one successful run of the pipeline on `cFS` writing to
path `r`. -/
def cFS₁ : FS := fun p => if p = "r" then some cOut else cFS p

/-- A second store, different from `cFS` (it also holds a dataset at `x`) but
agreeing with it at the input path `d` and the output path `r`. -/
def cFS₂ : FS := fun p =>
  if p = "d" then some cTable else if p = "x" then some cTable else none

/-- Concrete store holding a zero-row dataset at path `d`. -/
def cFSEmpty : FS :=
  fun p => if p = "d" then some ⟨["driver_id", "f1"], []⟩ else none


theorem colIndex_isSome_of_mem {cols : List String} {name : String}
    (h : name ∈ cols) : ∃ i, colIndex cols name = some i := by
  induction cols with
  | nil => cases h
  | cons c cs ih =>
    by_cases hc : c = name
    · exact ⟨0, by simp [colIndex, hc]⟩
    · rcases List.mem_cons.mp h with h₁ | h₂
      · exact absurd h₁.symm hc
      · rcases ih h₂ with ⟨i, hi⟩
        exact ⟨i + 1, by simp [colIndex, hc, hi]⟩

theorem selectTwo_cols {t s : Table} {c₁ c₂ : String}
    (h : selectTwo t c₁ c₂ = some s) : s.cols = [c₁, c₂] := by
  unfold selectTwo at h
  split at h
  · simp at h
    rw [← h]
  · exact absurd h (by simp)

theorem selectTwo_rows_length {t s : Table} {c₁ c₂ : String}
    (h : selectTwo t c₁ c₂ = some s) : s.rows.length = t.rows.length := by
  unfold selectTwo at h
  split at h
  · simp at h
    rw [← h]
    simp
  · exact absurd h (by simp)

theorem process_ok_inv {fs fs₁ : FS} {reg : Registry} {dp rp mu : String}
    (h : process fs reg dp rp mu = (fs₁, none)) :
    ∃ input m pred,
      fs dp = some input ∧ reg mu = some m ∧
      selectTwo (m.transform input) "driver_id" "prediction" = some pred ∧
      fs rp = none ∧
      fs₁ = fun q => if q = rp then some pred else fs q := by
  unfold process at h
  split at h
  · simp at h
  next input hd =>
    split at h
    · simp at h
    next m hm =>
      split at h
      · simp at h
      next pred hs =>
        split at h
        next hw => simp at h
        next fs₂ hw =>
          unfold writeParquet at hw
          split at hw
          · simp at hw
          next hfree =>
            simp at hw h
            exact ⟨input, m, pred, hd, hm, hs, hfree, h.symm.trans hw.symm⟩

theorem cModel_rowWise : RowWise cModel :=
  ⟨fun cs => cs ++ ["prediction"], fun r => r ++ [0], fun _ => rfl⟩

/-- Claim C1, counterexample: on a concrete accepted dataset the run succeeds
and the output's columns are not named `identifier` and `prediction`. -/
theorem process_output_cols_c1_counterexample :
    process cFS cReg "d" "r" "m" = (cFS₁, none) ∧
    cFS₁ "r" = some cOut ∧
    cOut.cols ≠ ["identifier", "prediction"] :=
  ⟨rfl, rfl, by decide⟩

/-- Claim C1 (amended): for every input dataset accepted by the pipeline, the
output table has exactly two columns, named driver_id and prediction,
regardless of how many columns the input dataset has. -/
theorem process_output_two_cols (fs fs₁ : FS) (reg : Registry)
    (dp rp mu : String) (out : Table)
    (hrun : process fs reg dp rp mu = (fs₁, none))
    (hout : fs₁ rp = some out) :
    out.cols = ["driver_id", "prediction"] := by
  obtain ⟨input, m, pred, hd, hm, hs, hw, hfs⟩ := process_ok_inv hrun
  rw [hfs] at hout
  simp at hout
  rw [← hout]
  exact selectTwo_cols hs

/-- Claim C1 witness: the amended theorem applied to the concrete run. -/
theorem process_output_two_cols_witness :
    cOut.cols = ["driver_id", "prediction"] :=
  process_output_two_cols cFS cFS₁ cReg "d" "r" "m" cOut rfl rfl

/-- Claim C2: for every input dataset with N rows and every model whose
transform is a deterministic row-wise mapping, a successful run writes an
output dataset with exactly N rows. -/
theorem process_row_count (fs fs₁ : FS) (reg : Registry) (dp rp mu : String)
    (m : Model) (input out : Table)
    (hm : reg mu = some m) (hrw : RowWise m)
    (hin : fs dp = some input)
    (hrun : process fs reg dp rp mu = (fs₁, none))
    (hout : fs₁ rp = some out) :
    out.rows.length = input.rows.length := by
  obtain ⟨input', m', pred, hd, hm', hs, hw, hfs⟩ := process_ok_inv hrun
  rw [hin] at hd
  rw [hm] at hm'
  cases hd
  cases hm'
  rw [hfs] at hout
  simp at hout
  rw [← hout]
  obtain ⟨g, f, hf⟩ := hrw
  have := selectTwo_rows_length hs
  rw [hf input] at this
  simpa using this

/-- Claim C2 witness: the theorem applied to the concrete two-row run. -/
theorem process_row_count_witness :
    cOut.rows.length = cTable.rows.length :=
  process_row_count cFS cFS₁ cReg "d" "r" "m" cModel cTable cOut rfl
    cModel_rowWise rfl rfl rfl

/-- Claim C7: a successful run changes the store only by creating a new
dataset at the output path; every other path, the input dataset included,
is untouched (the registry is passed read-only by construction). -/
theorem process_frame (fs fs₁ : FS) (reg : Registry) (dp rp mu : String)
    (hrun : process fs reg dp rp mu = (fs₁, none)) :
    (∀ p, p ≠ rp → fs₁ p = fs p) ∧
    fs rp = none ∧ (∃ t, fs₁ rp = some t) ∧
    fs₁ dp = fs dp := by
  obtain ⟨input, m, pred, hd, hm, hs, hw, hfs⟩ := process_ok_inv hrun
  subst hfs
  have hne : dp ≠ rp := by
    intro he
    rw [he, hw] at hd
    cases hd
  refine ⟨fun p hp => by simp [hp], hw, ⟨pred, by simp⟩, by simp [hne]⟩

/-- Claim C7 witness: the frame theorem applied to the concrete run, read off
at the input path and the output path. -/
theorem process_frame_witness :
    cFS₁ "d" = cFS "d" ∧ cFS "r" = none ∧ cFS₁ "r" = some cOut := by
  obtain ⟨hall, hnone, ⟨t, ht⟩, hdp⟩ :=
    process_frame cFS cFS₁ cReg "d" "r" "m" rfl
  exact ⟨hdp, hnone, rfl⟩

theorem process_never_overwrites (fs : FS) (reg : Registry)
    (dp rp mu : String) (t : Table) (hex : fs rp = some t) :
    (process fs reg dp rp mu).1 = fs ∧ (process fs reg dp rp mu).2 ≠ none := by
  cases hd : fs dp with
  | none => simp [process, hd]
  | some input =>
    cases hm : reg mu with
    | none => simp [process, hd, hm]
    | some m =>
      cases hs : selectTwo (m.transform input) "driver_id" "prediction" with
      | none => simp [process, hd, hm, hs]
      | some pred => simp [process, writeParquet, hd, hm, hs, hex]

/-- Claim C3: a successful run occupies the output path, so running the
pipeline again with the same output path fails and leaves the store
unchanged; when the output path differs from the input path the second run
fails exactly at the write step. -/
theorem process_second_run_fails (fs fs₁ : FS) (reg : Registry)
    (dp rp mu : String)
    (hrun : process fs reg dp rp mu = (fs₁, none)) :
    (process fs₁ reg dp rp mu).2 ≠ none ∧
    (process fs₁ reg dp rp mu).1 = fs₁ ∧
    (dp ≠ rp → (process fs₁ reg dp rp mu).2 = some Err.pathExists) := by
  obtain ⟨input, m, pred, hd, hm, hs, hw, hfs⟩ := process_ok_inv hrun
  have hex : fs₁ rp = some pred := by rw [hfs]; simp
  have hgen := process_never_overwrites fs₁ reg dp rp mu pred hex
  refine ⟨hgen.2, hgen.1, fun hne => ?_⟩
  have hd₁ : fs₁ dp = some input := by rw [hfs]; simp [hne, hd]
  simp [process, writeParquet, hd₁, hm, hs, hex]

/-- Claim C3 witness: running the concrete pipeline a second time, against
the store produced by the first run, fails at the write step without
changing the store. -/
theorem process_second_run_fails_witness :
    (process cFS₁ cReg "d" "r" "m").2 ≠ none ∧
    (process cFS₁ cReg "d" "r" "m").1 = cFS₁ ∧
    (process cFS₁ cReg "d" "r" "m").2 = some Err.pathExists := by
  have h := process_second_run_fails cFS cFS₁ cReg "d" "r" "m" rfl
  exact ⟨h.1, h.2.1, h.2.2 (by decide)⟩

/-- Claim C4: when the registry cannot resolve the model URI, the run fails,
the store is unchanged at every path, and the write stage is never reached. -/
theorem process_unresolvable_model (fs : FS) (reg : Registry)
    (dp rp mu : String)
    (hm : reg mu = none) :
    (process fs reg dp rp mu).1 = fs ∧
    (process fs reg dp rp mu).2 ≠ none ∧
    Event.writeResult rp ∉ stageTrace fs reg dp rp mu := by
  cases hd : fs dp with
  | none => simp [process, stageTrace, hd]
  | some input => simp [process, stageTrace, hd, hm]

/-- Claim C4 witness: the theorem applied to a concrete store and the empty
registry. -/
theorem process_unresolvable_model_witness :
    (process cFS cRegNone "d" "r" "m").1 = cFS ∧
    (process cFS cRegNone "d" "r" "m").2 ≠ none ∧
    Event.writeResult "r" ∉ stageTrace cFS cRegNone "d" "r" "m" :=
  process_unresolvable_model cFS cRegNone "d" "r" "m" rfl

/-- Claim C5: every run attempts the stages in the one fixed order read, load,
apply, write — the trace is always an initial segment of that sequence, with
no stage repeated, reordered or retried — and a successful run performs all
four in that order. -/
theorem process_stages_sequential (fs : FS) (reg : Registry)
    (dp rp mu : String) :
    (∃ n, stageTrace fs reg dp rp mu = (fullTrace dp rp mu).take n) ∧
    ((process fs reg dp rp mu).2 = none →
      stageTrace fs reg dp rp mu = fullTrace dp rp mu) := by
  cases hd : fs dp with
  | none =>
    refine ⟨⟨1, by simp [stageTrace, fullTrace, hd]⟩, fun hsucc => ?_⟩
    simp [process, hd] at hsucc
  | some input =>
    cases hm : reg mu with
    | none =>
      refine ⟨⟨2, by simp [stageTrace, fullTrace, hd, hm]⟩, fun hsucc => ?_⟩
      simp [process, hd, hm] at hsucc
    | some m =>
      cases hs : selectTwo (m.transform input) "driver_id" "prediction" with
      | none =>
        refine ⟨⟨3, by simp [stageTrace, fullTrace, hd, hm, hs]⟩,
          fun hsucc => ?_⟩
        simp [process, hd, hm, hs] at hsucc
      | some pred =>
        exact ⟨⟨4, by simp [stageTrace, fullTrace, hd, hm, hs]⟩,
          fun _ => by simp [stageTrace, fullTrace, hd, hm, hs]⟩

/-- Claim C5 witness: the concrete successful run performs exactly the four
stages in order. -/
theorem process_stages_sequential_witness :
    stageTrace cFS cReg "d" "r" "m" = fullTrace "d" "r" "m" :=
  (process_stages_sequential cFS cReg "d" "r" "m").2 rfl

theorem parseLoop_data_const (acc : Args) (argv : List String) (a : Args)
    (hres : parseLoop acc argv = some a) (h : "--data" ∉ argv) :
    a.data = acc.data := by
  induction acc, argv using parseLoop.induct with
  | case1 acc => cases hres; rfl
  | case2 acc v rest ih => exact absurd (List.mem_cons_self _ _) h
  | case3 acc v rest ih =>
    exact ih hres (fun hc => h (List.mem_cons_of_mem _ (List.mem_cons_of_mem _ hc)))
  | case4 acc v rest ih =>
    exact ih hres (fun hc => h (List.mem_cons_of_mem _ (List.mem_cons_of_mem _ hc)))
  | case5 acc head tail h1 h2 h3 =>
    unfold parseLoop at hres
    split at hres
    · simp at *
    · next heq =>
        injection heq with he1 he2
        exact (h1 _ _ he1 he2).elim
    · next heq =>
        injection heq with he1 he2
        exact (h2 _ _ he1 he2).elim
    · next heq =>
        injection heq with he1 he2
        exact (h3 _ _ he1 he2).elim
    · exact Option.noConfusion hres

theorem parseLoop_result_const (acc : Args) (argv : List String) (a : Args)
    (hres : parseLoop acc argv = some a) (h : "--result" ∉ argv) :
    a.result = acc.result := by
  induction acc, argv using parseLoop.induct with
  | case1 acc => cases hres; rfl
  | case3 acc v rest ih => exact absurd (List.mem_cons_self _ _) h
  | case2 acc v rest ih =>
    exact ih hres (fun hc => h (List.mem_cons_of_mem _ (List.mem_cons_of_mem _ hc)))
  | case4 acc v rest ih =>
    exact ih hres (fun hc => h (List.mem_cons_of_mem _ (List.mem_cons_of_mem _ hc)))
  | case5 acc head tail h1 h2 h3 =>
    unfold parseLoop at hres
    split at hres
    · simp at *
    · next heq =>
        injection heq with he1 he2
        exact (h1 _ _ he1 he2).elim
    · next heq =>
        injection heq with he1 he2
        exact (h2 _ _ he1 he2).elim
    · next heq =>
        injection heq with he1 he2
        exact (h3 _ _ he1 he2).elim
    · exact Option.noConfusion hres

theorem parseLoop_model_uri_const (acc : Args) (argv : List String) (a : Args)
    (hres : parseLoop acc argv = some a) (h : "--model_uri" ∉ argv) :
    a.model_uri = acc.model_uri := by
  induction acc, argv using parseLoop.induct with
  | case1 acc => cases hres; rfl
  | case4 acc v rest ih => exact absurd (List.mem_cons_self _ _) h
  | case2 acc v rest ih =>
    exact ih hres (fun hc => h (List.mem_cons_of_mem _ (List.mem_cons_of_mem _ hc)))
  | case3 acc v rest ih =>
    exact ih hres (fun hc => h (List.mem_cons_of_mem _ (List.mem_cons_of_mem _ hc)))
  | case5 acc head tail h1 h2 h3 =>
    unfold parseLoop at hres
    split at hres
    · simp at *
    · next heq =>
        injection heq with he1 he2
        exact (h1 _ _ he1 he2).elim
    · next heq =>
        injection heq with he1 he2
        exact (h2 _ _ he1 he2).elim
    · next heq =>
        injection heq with he1 he2
        exact (h3 _ _ he1 he2).elim
    · exact Option.noConfusion hres


/-- Claim C6: whenever the command line parses, every omitted flag keeps its
default — `--data` defaults to data.parquet, `--result` to result, and
`--model_uri` to the sample registry URI, which has the shape
scheme://registry-host/experiment-id/run-id/artifacts/name. -/
theorem parseArgs_defaults (argv : List String) (a : Args)
    (hres : parseArgs argv = some a) :
    ("--data" ∉ argv → a.data = "data.parquet") ∧
    ("--result" ∉ argv → a.result = "result") ∧
    ("--model_uri" ∉ argv → a.model_uri = defaultModelUri) ∧
    ∃ scheme host expId runId name,
      defaultModelUri =
        scheme ++ "://" ++ host ++ "/" ++ expId ++ "/" ++ runId ++
          "/artifacts/" ++ name := by
  refine ⟨fun h => parseLoop_data_const _ argv a hres h,
    fun h => parseLoop_result_const _ argv a hres h,
    fun h => parseLoop_model_uri_const _ argv a hres h,
    "s3", "kc-mlflow", "341", "49349c2583f94de18093e90d3d6ea578",
    "e-sidorova", rfl⟩

/-- Claim C6 witness: the empty command line parses to exactly the three
defaults. -/
theorem parseArgs_defaults_witness :
    (parseArgs []).map Args.data = some "data.parquet" ∧
    (parseArgs []).map Args.result = some "result" ∧
    (parseArgs []).map Args.model_uri = some defaultModelUri := by
  have h := parseArgs_defaults [] ⟨defaultDataPath, defaultResultPath,
    defaultModelUri⟩ rfl
  exact ⟨congrArg some (h.1 (by simp)), congrArg some (h.2.1 (by simp)),
    congrArg some (h.2.2.1 (by simp))⟩

/-- Claim C8: an input dataset with zero rows and a schema-compatible
row-wise model yield a successful run whose output is the empty dataset with
the two-column driver_id/prediction schema. -/
theorem process_empty_input (fs : FS) (reg : Registry) (dp rp mu : String)
    (m : Model) (cols : List String)
    (hin : fs dp = some ⟨cols, []⟩)
    (hm : reg mu = some m)
    (hrw : RowWise m)
    (h₁ : "driver_id" ∈ (m.transform ⟨cols, []⟩).cols)
    (h₂ : "prediction" ∈ (m.transform ⟨cols, []⟩).cols)
    (hfree : fs rp = none) :
    (process fs reg dp rp mu).2 = none ∧
    (process fs reg dp rp mu).1 rp = some ⟨["driver_id", "prediction"], []⟩ := by
  obtain ⟨g, f, hf⟩ := hrw
  obtain ⟨i, hi⟩ := colIndex_isSome_of_mem h₁
  obtain ⟨j, hj⟩ := colIndex_isSome_of_mem h₂
  have hs : selectTwo (m.transform ⟨cols, []⟩) "driver_id" "prediction" =
      some ⟨["driver_id", "prediction"], []⟩ := by
    unfold selectTwo
    rw [hi, hj]
    rw [hf] at hi ⊢
    simp
  simp [process, writeParquet, hin, hm, hs, hfree]

/-- Claim C8 witness: the theorem applied to a concrete zero-row dataset. -/
theorem process_empty_input_witness :
    (process cFSEmpty cReg "d" "r" "m").2 = none ∧
    (process cFSEmpty cReg "d" "r" "m").1 "r" =
      some ⟨["driver_id", "prediction"], []⟩ :=
  process_empty_input cFSEmpty cReg "d" "r" "m" cModel ["driver_id", "f1"]
    rfl rfl cModel_rowWise (by decide) (by decide) rfl

/-- Claim C9: on every execution the three artifact-store environment
variables are assigned first, in source order, and everything after them in
the trace is a pipeline-stage event — no stage ever runs before the three
assignments. -/
theorem env_set_before_stages (fs : FS) (reg : Registry) (argv : List String) :
    ∃ rest, programTrace fs reg argv =
      Event.setEnv "MLFLOW_S3_ENDPOINT_URL" "https://url.net" ::
      Event.setEnv "AWS_ACCESS_KEY_ID" "key-id" ::
      Event.setEnv "AWS_SECRET_ACCESS_KEY" "access-key" :: rest ∧
      ∀ e ∈ rest, isStageEvent e = true := by
  unfold programTrace envSetup
  cases hp : parseArgs argv with
  | none => exact ⟨[], by simp⟩
  | some a =>
    refine ⟨stageTrace fs reg a.data a.result a.model_uri, by simp, ?_⟩
    intro e he
    unfold stageTrace at he
    rcases List.mem_cons.mp he with rfl | he
    · rfl
    cases hd : fs a.data with
    | none => rw [hd] at he; cases he
    | some input =>
      rw [hd] at he
      rcases List.mem_cons.mp he with rfl | he
      · rfl
      cases hm : reg a.model_uri with
      | none => rw [hm] at he; cases he
      | some m =>
        rw [hm] at he
        rcases List.mem_cons.mp he with rfl | he
        · rfl
        cases hs : selectTwo (m.transform input) "driver_id" "prediction" with
        | none => rw [hs] at he; cases he
        | some pred =>
          rw [hs] at he
          rcases List.mem_cons.mp he with rfl | he
          · rfl
          cases he

/-- Claim C10: the outcome of `process` depends only on the dataset stored at
the input path, the model the registry resolves for the URI, and the state
of the output path: two runs agreeing on those three inputs produce the same
error status and the same output table. -/
theorem process_deterministic (fs₁ fs₂ : FS) (reg₁ reg₂ : Registry)
    (dp rp mu : String)
    (hdata : fs₁ dp = fs₂ dp) (hmodel : reg₁ mu = reg₂ mu)
    (hout : fs₁ rp = fs₂ rp) :
    (process fs₁ reg₁ dp rp mu).2 = (process fs₂ reg₂ dp rp mu).2 ∧
    (process fs₁ reg₁ dp rp mu).1 rp = (process fs₂ reg₂ dp rp mu).1 rp := by
  cases hd : fs₂ dp with
  | none => simp [process, hd, hdata.trans hd, hout]
  | some input =>
    cases hm : reg₂ mu with
    | none => simp [process, hd, hm, hdata.trans hd, hmodel.trans hm, hout]
    | some m =>
      cases hs : selectTwo (m.transform input) "driver_id" "prediction" with
      | none =>
        simp [process, hd, hm, hs, hdata.trans hd, hmodel.trans hm, hout]
      | some pred =>
        cases hw : fs₂ rp with
        | some t =>
          simp [process, writeParquet, hd, hm, hs, hw, hdata.trans hd,
            hmodel.trans hm, hout.trans hw]
        | none =>
          simp [process, writeParquet, hd, hm, hs, hw, hdata.trans hd,
            hmodel.trans hm, hout.trans hw]

/-- Claim C10 witness: two different stores that agree at the input and
output paths give identical outcomes. -/
theorem process_deterministic_witness :
    (process cFS cReg "d" "r" "m").2 = (process cFS₂ cReg "d" "r" "m").2 ∧
    (process cFS cReg "d" "r" "m").1 "r" =
      (process cFS₂ cReg "d" "r" "m").1 "r" :=
  process_deterministic cFS cFS₂ cReg cReg "d" "r" "m" rfl rfl rfl

end PySparkPredict
